import Mathlib

/-!
Shallow embedding of the windows-mcp-server core (JSON-RPC/MCP message model,
protocol handler, rate limiter, sandbox, stdio framing loop), translated from
`src/windows_mcp_server/`.  Machine-level collaborators that live outside the
repository (the OS path resolver `pathlib.Path.resolve`, `os.environ`,
`json.dumps` text rendering, wall-clock `time.time()`) are passed in as
explicit parameters or modelled by simple executable stand-ins; everything
else follows the Python source line by line.
-/

namespace WMCP

/-- Decoded JSON values, as produced by `json.loads`.  Numbers are modelled as
integers (the server only ever inspects ids and never does arithmetic on
payload numbers). -/
inductive Json where
  | null
  | bool (b : Bool)
  | num (n : Int)
  | str (s : String)
  | arr (xs : List Json)
  | obj (kvs : List (String × Json))

/-- First-match lookup in a decoded JSON object, i.e. Python `dict.get`. -/
def lookupJ : List (String × Json) → String → Option Json
  | [], _ => none
  | (k, v) :: rest, key => if k = key then some v else lookupJ rest key

/-- ASCII whitespace, for the executable model of the Python `str.strip`. -/
def isSpaceChar (c : Char) : Bool := c = ' ' ∨ c = '\t' ∨ c = '\n' ∨ c = '\r'

/-- Strip leading and trailing whitespace from a character list. -/
def listTrim (l : List Char) : List Char :=
  ((l.dropWhile isSpaceChar).reverse.dropWhile isSpaceChar).reverse

/-- Python `str.strip()` (over the whitespace the server actually meets). -/
def strTrim (s : String) : String := String.mk (listTrim s.toList)

/-- Python `str.startswith`. -/
def strStartsWith (s p : String) : Bool := p.toList.isPrefixOf s.toList

/-- ASCII lowering of one character. -/
def lowerChar (c : Char) : Char :=
  if 65 ≤ c.toNat ∧ c.toNat ≤ 90 then Char.ofNat (c.toNat + 32) else c

/-- Python `str.lower()` (ASCII range, which covers the process names the
sandbox compares). -/
def strLower (s : String) : String := String.mk (s.toList.map lowerChar)

/-- Digit-string parsing, the success path of Python `int(...)`. -/
def digitsToNatAux : Nat → List Char → Option Nat
  | acc, [] => some acc
  | acc, c :: rest =>
    if 48 ≤ c.toNat ∧ c.toNat ≤ 57 then digitsToNatAux (acc * 10 + (c.toNat - 48)) rest
    else none

/-- Python `int(s)` on a stripped string: digits parse, anything else (the
empty string included) raises, modelled as `none`. -/
def strToNat (s : String) : Option Nat :=
  match s.toList with
  | [] => none
  | l => digitsToNatAux 0 l

/-- A raised Python exception, classified by the exception classes the server
distinguishes in its `except` clauses, carrying `str(e)`. -/
inductive PyExc where
  | valueError (msg : String)
  | permissionError (msg : String)
  | timeoutError (msg : String)
  | fileNotFoundError (msg : String)
  | other (msg : String)

/-- The text `str(e)` of a modelled exception. -/
def PyExc.msg : PyExc → String
  | .valueError m => m
  | .permissionError m => m
  | .timeoutError m => m
  | .fileNotFoundError m => m
  | .other m => m

/-- Error codes from `protocol/models.py` (`ErrorCode`). -/
def ErrorCode.PARSE_ERROR : Int := -32700
def ErrorCode.INVALID_REQUEST : Int := -32600
def ErrorCode.METHOD_NOT_FOUND : Int := -32601
def ErrorCode.INVALID_PARAMS : Int := -32602
def ErrorCode.INTERNAL_ERROR : Int := -32603
def ErrorCode.TOOL_NOT_FOUND : Int := -32001
def ErrorCode.TOOL_EXECUTION_ERROR : Int := -32002
def ErrorCode.AUTHENTICATION_REQUIRED : Int := -32003
def ErrorCode.PERMISSION_DENIED : Int := -32004
def ErrorCode.RESOURCE_NOT_FOUND : Int := -32005
def ErrorCode.RATE_LIMITED : Int := -32006
def ErrorCode.TIMEOUT : Int := -32007
def ErrorCode.CANCELLED : Int := -32008
def ErrorCode.PLATFORM_NOT_SUPPORTED : Int := -32009

/-- The `default_messages` table of `JSONRPCError.from_code`. -/
def defaultMessage (code : Int) : String :=
  if code = ErrorCode.PARSE_ERROR then "Parse error"
  else if code = ErrorCode.INVALID_REQUEST then "Invalid Request"
  else if code = ErrorCode.METHOD_NOT_FOUND then "Method not found"
  else if code = ErrorCode.INVALID_PARAMS then "Invalid params"
  else if code = ErrorCode.INTERNAL_ERROR then "Internal error"
  else if code = ErrorCode.TOOL_NOT_FOUND then "Tool not found"
  else if code = ErrorCode.TOOL_EXECUTION_ERROR then "Tool execution error"
  else if code = ErrorCode.AUTHENTICATION_REQUIRED then "Authentication required"
  else if code = ErrorCode.PERMISSION_DENIED then "Permission denied"
  else if code = ErrorCode.RESOURCE_NOT_FOUND then "Resource not found"
  else if code = ErrorCode.RATE_LIMITED then "Rate limited"
  else if code = ErrorCode.TIMEOUT then "Request timeout"
  else if code = ErrorCode.CANCELLED then "Request cancelled"
  else if code = ErrorCode.PLATFORM_NOT_SUPPORTED then "Platform not supported"
  else "Unknown error"

/-- Model of `JSONRPCError` (protocol/models.py). -/
structure JSONRPCError where
  code : Int
  message : String
  data : Option Json

/-- Model of `JSONRPCError.from_code`: `message or default_messages.get(code, ...)` —
a `None` or empty message falls back to the default for the code. -/
def JSONRPCError.from_code (code : Int) (message : Option String) : JSONRPCError :=
  { code := code
    message := match message with
      | some m => if m = "" then defaultMessage code else m
      | none => defaultMessage code
    data := none }

/-- A request id: `int | str` (absence/null is `Option.none` one level up). -/
inductive RId where
  | num (n : Int)
  | str (s : String)
deriving DecidableEq

/-- The validated `params` field of a request: `dict | list | None`. -/
inductive Params where
  | none
  | obj (kvs : List (String × Json))
  | arr (xs : List Json)

/-- Model of `JSONRPCRequest` after pydantic validation. -/
structure JSONRPCRequest where
  id : Option RId
  method : String
  params : Params

/-- Model of `JSONRPCResponse`.  Here `result` is `Any | None`, so a handler that returns
`None` yields a response with `result = none` and `error = none`. -/
structure JSONRPCResponse where
  id : Option RId
  result : Option Json
  error : Option JSONRPCError

/-- Model of `JSONRPCResponse.success`. -/
def JSONRPCResponse.success (id : Option RId) (result : Option Json) : JSONRPCResponse :=
  { id := id, result := result, error := none }

/-- Model of `JSONRPCResponse.failure`. -/
def JSONRPCResponse.failure (id : Option RId) (error : JSONRPCError) : JSONRPCResponse :=
  { id := id, result := none, error := some error }

/-- Validation of the `id` value used when building a failure response from an
unvalidated payload (`JSONRPCResponse.failure(data.get("id"), ...)`): pydantic
accepts `int | str | None` and raises a `ValidationError` (a `ValueError`)
otherwise. -/
def idOfJson : Option Json → Except PyExc (Option RId)
  | none => .ok none
  | some .null => .ok none
  | some (.num n) => .ok (some (.num n))
  | some (.str s) => .ok (some (.str s))
  | some _ => .error (.valueError "Input should be int, str or None")

/-- Validation of the raw `id` field: int, str or null/absent. -/
def idField (kvs : List (String × Json)) : Except String (Option RId) :=
  match lookupJ kvs "id" with
  | none => .ok Option.none
  | some .null => .ok Option.none
  | some (.num n) => .ok (some (RId.num n))
  | some (.str s) => .ok (some (RId.str s))
  | some _ => .error "id: Input should be int, str or None"

/-- Validation of the `method` field: a required string, non-empty after
stripping, stored stripped (the field validator returns `v.strip()`). -/
def methodField (kvs : List (String × Json)) : Except String String :=
  match lookupJ kvs "method" with
  | some (.str m) =>
    if strTrim m = "" then .error "Method name cannot be empty" else .ok (strTrim m)
  | some _ => .error "method: Input should be a valid string"
  | none => .error "method: Field required"

/-- Validation of the `params` field: `dict | list | None`. -/
def paramsField (kvs : List (String × Json)) : Except String Params :=
  match lookupJ kvs "params" with
  | none => .ok Params.none
  | some .null => .ok Params.none
  | some (.obj o) => .ok (Params.obj o)
  | some (.arr a) => .ok (Params.arr a)
  | some _ => .error "params: Input should be dict, list or None"

/-- Model of `JSONRPCRequest.model_validate` over a decoded payload.  Mirrors the
pydantic model: the payload must be an object; `jsonrpc` defaults to "2.0"
and must equal it when present; `id` must be int, str or null; `method` must
be a string that is non-empty after stripping (and is stored stripped);
`params` must be an object, an array or null.  Extra keys are ignored. -/
def validateRequest (j : Json) : Except String JSONRPCRequest :=
  match j with
  | .obj kvs =>
    match lookupJ kvs "jsonrpc" with
    | none => validateFields kvs
    | some (.str "2.0") => validateFields kvs
    | some _ => .error "Input should be 2.0"
  | _ => .error "Input should be a valid dictionary"
where
  validateFields (kvs : List (String × Json)) : Except String JSONRPCRequest :=
    match idField kvs with
    | .error e => .error e
    | .ok id =>
      match methodField kvs with
      | .error e => .error e
      | .ok method =>
        match paramsField kvs with
        | .error e => .error e
        | .ok params => .ok { id := id, method := method, params := params }

/-! ## Tool registry (tools/base.py, tools/registry.py) -/

/-- Model of `ToolParameter` (protocol/models.py). -/
structure MToolParameter where
  name : String
  description : String
  type : String
  required : Bool
  default : Option Json
  enumVals : Option (List String)

/-- Model of `ToolParameter.to_json_schema`: `default` is emitted when not `None`,
`enum` when truthy (a present-but-empty list is omitted). -/
def MToolParameter.to_json_schema (p : MToolParameter) : Json :=
  Json.obj ([("type", .str p.type), ("description", .str p.description)]
    ++ (match p.default with | some d => [("default", d)] | none => [])
    ++ (match p.enumVals with
        | some (e :: es) => [("enum", Json.arr ((e :: es).map Json.str))]
        | _ => []))

/-- Model of `ToolDefinition` (protocol/models.py). -/
structure MToolDefinition where
  name : String
  description : String
  parameters : List MToolParameter
  category : String
  requires_auth : Bool
  is_destructive : Bool

/-- Model of `ToolDefinition.to_mcp_schema`. -/
def MToolDefinition.to_mcp_schema (d : MToolDefinition) : Json :=
  Json.obj [("name", .str d.name), ("description", .str d.description),
    ("inputSchema", Json.obj [("type", .str "object"),
      ("properties", Json.obj (d.parameters.map
        (fun p => (p.name, p.to_json_schema)))),
      ("required", Json.arr ((d.parameters.filter (·.required)).map
        (fun p => Json.str p.name)))])]

/-- Model of `ToolResult` (protocol/models.py). -/
structure MToolResult where
  success : Bool
  data : Option Json
  error : Option String
  metadata : List (String × Json)

/-- Model of `ToolResult.ok`. -/
def MToolResult.ok (data : Option Json) : MToolResult :=
  { success := true, data := data, error := none, metadata := [] }

/-- Model of `ToolResult.fail`. -/
def MToolResult.fail (error : String) : MToolResult :=
  { success := false, data := none, error := some error, metadata := [] }

/-- A concrete tool (tools/base.py `BaseTool`).  `get_definition` and
`execute` are the abstract methods supplied by each tool implementation —
external collaborators per the spec — so they appear here as arbitrary data,
including the possibility of raising. -/
structure MTool where
  name : String
  get_definition : Except PyExc MToolDefinition
  execute : List (String × Json) → Except PyExc MToolResult

/-- Model of `BaseTool.safe_execute`: runs `execute` and classifies raised failures
into fixed `ToolResult.fail` categories. -/
def BaseTool.safe_execute (t : MTool) (args : List (String × Json)) : MToolResult :=
  match t.execute args with
  | .ok r => r
  | .error (.permissionError m) => MToolResult.fail ("Permission denied: " ++ m)
  | .error (.fileNotFoundError m) => MToolResult.fail ("File not found: " ++ m)
  | .error (.timeoutError m) => MToolResult.fail ("Operation timeout: " ++ m)
  | .error (.valueError m) => MToolResult.fail ("Execution error: " ++ m)
  | .error (.other m) => MToolResult.fail ("Execution error: " ++ m)

/-- Model of `ToolRegistry`: the name-keyed tool table (first match models the dict
lookup). -/
structure ToolRegistry where
  tools : List MTool

/-- Model of `ToolRegistry.execute_tool`: unknown name yields
`ToolResult.fail("Tool not found: ...")`, otherwise `safe_execute`. -/
def ToolRegistry.execute_tool (reg : ToolRegistry) (name : String)
    (arguments : List (String × Json)) : MToolResult :=
  match reg.tools.find? (fun t => t.name = name) with
  | none => MToolResult.fail ("Tool not found: " ++ name)
  | some t => BaseTool.safe_execute t arguments

/-- Model of `ToolRegistry.list_tools` composed with the per-tool `get_definition`
calls of the handler list comprehension: the first raising tool
propagates. -/
def ToolRegistry.list_defs : List MTool → Except PyExc (List MToolDefinition)
  | [] => .ok []
  | t :: rest => do
    let d ← t.get_definition
    let ds ← ToolRegistry.list_defs rest
    pure (d :: ds)

/-! ## Protocol handler (protocol/handler.py) -/

/-- Rendering of JSON to text, standing in for `json.dumps(data, indent=2,
default=str)` (the stdlib renderer lives outside the repository and its text
is never inspected by the server). -/
def Json.render : Json → String
  | .null => "null"
  | .bool b => cond b "true" "false"
  | .num n => toString n
  | .str s => "\x22" ++ s ++ "\x22"
  | .arr xs => "[" ++ String.intercalate ", "
      (xs.attach.map (fun x => Json.render x.1)) ++ "]"
  | .obj kvs => "\x7b" ++ String.intercalate ", "
      (kvs.attach.map (fun kv => "\x22" ++ kv.1.1 ++ "\x22: " ++ Json.render kv.1.2)) ++ "\x7d"
decreasing_by
  · have := List.sizeOf_lt_of_mem x.2
    simp only [Json.arr.sizeOf_spec]
    omega
  · have h1 := List.sizeOf_lt_of_mem kv.2
    have h2 : sizeOf kv.1.2 < sizeOf kv.1 := by
      obtain ⟨⟨k, v⟩, hm⟩ := kv
      simp
    simp only [Json.obj.sizeOf_spec]
    omega

/-- Mutable state of `ProtocolHandler` (`_initialized`,
`_client_capabilities`; the `_pending_requests` table is never written
anywhere in the source, so it stays empty and is not represented). -/
structure HandlerState where
  initialized : Bool
  clientCapabilities : List (String × Json)

/-- Parameter conversion in `handle_request`: dicts pass through, positional
lists become a dict keyed by stringified indices. -/
def convertParams : Params → Option (List (String × Json))
  | .none => none
  | .obj kvs => some kvs
  | .arr xs => some (xs.enum.map (fun iv => (toString iv.1, iv.2)))

/-- Python truthiness of the converted params (`if not params:`): absent or
an empty dict are falsy. -/
def paramsTruthy : Option (List (String × Json)) → Bool
  | none => false
  | some [] => false
  | some (_ :: _) => true

/-- Model of `MCPCapabilities` as dumped in the initialize result. -/
def capabilitiesJson : Json :=
  Json.obj [("tools", .bool true), ("resources", .bool false),
    ("prompts", .bool false), ("logging", .bool true), ("experimental", .obj [])]

/-- Model of `MCPServerInfo` as dumped (no field aliases, hence snake_case keys). -/
def serverInfoJson : Json :=
  Json.obj [("name", .str "windows-mcp-server"), ("version", .str "1.0.0"),
    ("protocol_version", .str "2024-11-05"), ("capabilities", capabilitiesJson),
    ("platform", .str "windows")]

/-- Model of `InitializeResult.model_dump(by_alias=True)`. -/
def initializeResultJson : Json :=
  Json.obj [("protocolVersion", .str "2024-11-05"),
    ("capabilities", capabilitiesJson), ("serverInfo", serverInfoJson)]

/-- Model of `InitializeParams.model_validate`, returning the peer capabilities on
success (`populate_by_name` accepts the alias or the field name). -/
def parseInitParams (kvs : List (String × Json)) : Option (List (String × Json)) :=
  match (lookupJ kvs "protocolVersion").orElse (fun _ => lookupJ kvs "protocol_version") with
  | some (.str _) =>
    let caps := match lookupJ kvs "capabilities" with
      | none => some ([] : List (String × Json))
      | some (.obj c) => some c
      | some _ => none
    match caps with
    | none => none
    | some c =>
      match (lookupJ kvs "clientInfo").orElse (fun _ => lookupJ kvs "client_info") with
      | none => some c
      | some (.obj ci) =>
        if ci.all (fun kv => match kv.2 with | .str _ => true | _ => false)
        then some c else none
      | some _ => none
  | _ => none

/-- Model of `ProtocolHandler._handle_initialize`: stores peer capabilities when the
params validate (failures are only logged), always returns the fixed
initialize result. -/
def ProtocolHandler.handle_initialize (st : HandlerState)
    (p : Option (List (String × Json))) :
    Except PyExc (Option Json) × HandlerState :=
  let st' :=
    if paramsTruthy p then
      match p with
      | some kvs =>
        match parseInitParams kvs with
        | some caps => { st with clientCapabilities := caps }
        | none => st
      | none => st
    else st
  (.ok (some initializeResultJson), st')

/-- Model of `ProtocolHandler._handle_tools_list`. -/
def ProtocolHandler.handle_tools_list (reg : ToolRegistry) :
    Except PyExc (Option Json) :=
  match ToolRegistry.list_defs reg.tools with
  | .error e => .error e
  | .ok ds => .ok (some (Json.obj [("tools",
      Json.arr (ds.map MToolDefinition.to_mcp_schema))]))

/-- Model of `ToolCallParams.model_validate` preceded by the handler
`if not params:` guard: requires a string `name`; `arguments` defaults to
the empty dict and must be a dict when present. -/
def parseToolCallParams (p : Option (List (String × Json))) :
    Except PyExc (String × List (String × Json)) :=
  if paramsTruthy p = false then
    .error (.valueError "Missing required params for tools/call")
  else
    match p with
    | some kvs =>
      match lookupJ kvs "name" with
      | some (.str n) =>
        (match lookupJ kvs "arguments" with
         | none => .ok (n, [])
         | some (.obj args) => .ok (n, args)
         | some _ => .error (.valueError "Invalid tool call params: arguments"))
      | _ => .error (.valueError "Invalid tool call params: name")
    | none => .error (.valueError "Missing required params for tools/call")

/-- The text content of a successful tool call: strings verbatim, other data
rendered, absent data a fixed placeholder. -/
def tcText : Option Json → String
  | some (.str s) => s
  | some j => Json.render j
  | none => "Operation completed successfully"

/-- Model of `tool_result.error or "Unknown error"`. -/
def orUnknown : Option String → String
  | some m => if m = "" then "Unknown error" else m
  | none => "Unknown error"

/-- Model of `ToolCallResult.success/.error` followed by `model_dump(by_alias=True)`:
one text content block plus the `isError` flag. -/
def tcrJson (text : String) (isErr : Bool) : Json :=
  Json.obj [("content", Json.arr [Json.obj [("type", .str "text"), ("text", .str text)]]),
    ("isError", .bool isErr)]

/-- Model of `ProtocolHandler._handle_tools_call`. -/
def ProtocolHandler.handle_tools_call (reg : ToolRegistry)
    (p : Option (List (String × Json))) : Except PyExc (Option Json) :=
  match parseToolCallParams p with
  | .error e => .error e
  | .ok (name, args) =>
    let tr := ToolRegistry.execute_tool reg name args
    if tr.success then .ok (some (tcrJson (tcText tr.data) false))
    else .ok (some (tcrJson (orUnknown tr.error) true))

/-- The handler method table keys. -/
def handlerTable : List String :=
  ["initialize", "initialized", "tools/list", "tools/call",
   "notifications/cancelled", "ping"]

/-- Dispatch to the handler for a method in the table.
`initialized` flips the state flag; `notifications/cancelled` is a no-op
because the pending-request table is never populated; `ping` echoes. -/
def dispatchMethod (reg : ToolRegistry) (st : HandlerState) (m : String)
    (p : Option (List (String × Json))) :
    Except PyExc (Option Json) × HandlerState :=
  if m = "initialize" then ProtocolHandler.handle_initialize st p
  else if m = "initialized" then (.ok none, { st with initialized := true })
  else if m = "tools/list" then (ProtocolHandler.handle_tools_list reg, st)
  else if m = "tools/call" then (ProtocolHandler.handle_tools_call reg p, st)
  else if m = "notifications/cancelled" then (.ok none, st)
  else (.ok (some (Json.obj [("status", .str "ok")])), st)

/-- The `except` clauses of `handle_request`, mapping an exception class to
its JSON-RPC error (`message = str(e)` in every branch). -/
def pyExcToError : PyExc → JSONRPCError
  | .valueError m => JSONRPCError.from_code ErrorCode.INVALID_PARAMS (some m)
  | .permissionError m => JSONRPCError.from_code ErrorCode.PERMISSION_DENIED (some m)
  | .timeoutError m => JSONRPCError.from_code ErrorCode.TIMEOUT (some m)
  | .fileNotFoundError m => JSONRPCError.from_code ErrorCode.INTERNAL_ERROR (some m)
  | .other m => JSONRPCError.from_code ErrorCode.INTERNAL_ERROR (some m)

/-- Model of `ProtocolHandler.handle_request`: notifications never get a response; an
unknown method yields `MethodNotFound` for non-notifications; raised handler
failures are classified by `pyExcToError`. -/
def ProtocolHandler.handle_request (reg : ToolRegistry) (st : HandlerState)
    (req : JSONRPCRequest) : Option JSONRPCResponse × HandlerState :=
  let isNotif := req.id.isNone
  if req.method ∈ handlerTable then
    match dispatchMethod reg st req.method (convertParams req.params) with
    | (.ok v, st') =>
      (if isNotif then none else some (JSONRPCResponse.success req.id v), st')
    | (.error e, st') =>
      (if isNotif then none else some (JSONRPCResponse.failure req.id (pyExcToError e)), st')
  else
    (if isNotif then none
     else some (JSONRPCResponse.failure req.id
       (JSONRPCError.from_code ErrorCode.METHOD_NOT_FOUND
         (some ("Method not found: " ++ req.method)))), st)

/-! ## Rate limiter (security/rate_limiter.py)

Wall-clock time (`time.time()`) is passed in explicitly as a rational
`now`; the per-bucket locks serialize each read-modify-write, which the
functional state-passing below captures. -/

/-- Model of the `RateLimiter` state: parameters plus the per-client timestamp buckets
(`defaultdict`, so an absent client reads as the empty bucket). -/
structure RateLimiter where
  max_requests : Nat
  window_seconds : ℤ
  buckets : String → List ℤ

/-- Replace the bucket of one client. -/
def RateLimiter.setBucket (rl : RateLimiter) (client : String) (l : List ℤ) :
    RateLimiter :=
  { rl with buckets := fun c => if c = client then l else rl.buckets c }

/-- Model of `RateLimiter.is_allowed`: prune timestamps at or before `now − window`
(the bucket keeps the pruned list even on rejection), reject without
recording when the remaining count reaches `max_requests`, otherwise append
`now` and accept. -/
def RateLimiter.is_allowed (rl : RateLimiter) (client : String) (now : ℤ) :
    Bool × RateLimiter :=
  let pruned := (rl.buckets client).filter (fun ts => now - rl.window_seconds < ts)
  if rl.max_requests ≤ pruned.length then
    (false, rl.setBucket client pruned)
  else
    (true, rl.setBucket client (pruned ++ [now]))

/-- Model of `RateLimiter.get_reset_time`: seconds until the oldest retained
timestamp leaves the window, zero for an empty bucket. -/
def RateLimiter.get_reset_time (rl : RateLimiter) (client : String) (now : ℤ) : ℤ :=
  match (rl.buckets client).filter (fun ts => now - rl.window_seconds < ts) with
  | [] => 0
  | x :: xs => max 0 ((xs.foldl min x) + rl.window_seconds - now)

/-- Model of `RateLimiter.reset`. -/
def RateLimiter.reset (rl : RateLimiter) (client : String) : RateLimiter :=
  rl.setBucket client []

/-- A fresh limiter configured with `max_requests = n`,
`window_seconds = w`. -/
def RateLimiter.fresh (n : Nat) (w : ℤ) : RateLimiter :=
  { max_requests := n, window_seconds := w, buckets := fun _ => [] }

/-- A sequence of `is_allowed` calls for one client at the given times,
returning the admission decisions in order and the final limiter state. -/
def RateLimiter.runCalls (rl : RateLimiter) (client : String) :
    List ℤ → List Bool × RateLimiter
  | [] => ([], rl)
  | t :: ts =>
    let res := rl.is_allowed client t
    let rest := RateLimiter.runCalls res.2 client ts
    (res.1 :: rest.1, rest.2)

/-! ## Server message loop (server.py) -/

/-- The server state touched by `handle_message`: the rate limiter and the
protocol handler state, plus the (read-only) tool registry. -/
structure ServerState where
  rl : RateLimiter
  hst : HandlerState
  reg : ToolRegistry

/-- The reply of `handle_message`: a single serialized response or a joined
batch reply array (only built when at least one element produced a
response). -/
inductive HMOut where
  | one (r : JSONRPCResponse)
  | many (rs : List JSONRPCResponse)

/-- Model of `MCPServer._handle_single_request`: validate into a request and dispatch;
on validation failure build an `InvalidRequest` reply from `data.get("id")`
— which crashes with `AttributeError` when the element is not a dict, and
with a `ValidationError` when the raw `id` is not int/str/null. -/
def MCPServer.handle_single_request (reg : ToolRegistry) (hst : HandlerState)
    (data : Json) : Except PyExc (Option JSONRPCResponse × HandlerState) :=
  match validateRequest data with
  | .ok req => .ok (ProtocolHandler.handle_request reg hst req)
  | .error emsg =>
    match data with
    | .obj kvs =>
      match idOfJson (lookupJ kvs "id") with
      | .ok rid =>
        .ok (some (JSONRPCResponse.failure rid
          (JSONRPCError.from_code ErrorCode.INVALID_REQUEST (some emsg))), hst)
      | .error e => .error e
    | _ => .error (.other "AttributeError: object has no attribute get")

/-- The batch loop of `handle_message`: each element handled independently in
array order, non-null replies collected in order, exceptions propagating. -/
def MCPServer.handle_batch (reg : ToolRegistry) :
    HandlerState → List Json → Except PyExc (List JSONRPCResponse × HandlerState)
  | hst, [] => .ok ([], hst)
  | hst, j :: rest =>
    match MCPServer.handle_single_request reg hst j with
    | .error e => .error e
    | .ok (ro, hst') =>
      match MCPServer.handle_batch reg hst' rest with
      | .error e => .error e
      | .ok (rs, hst'') =>
        .ok ((match ro with | some r => [r] | none => []) ++ rs, hst'')

/-- Model of `MCPServer.handle_message`: rate-limit first (replying with id null on
rejection, before any parsing), then parse (`parsed` is the `json.loads`
outcome, error meaning `JSONDecodeError`), then the batch or single path.
The rendering of the retry-after float is abstracted by `toString`. -/
def MCPServer.handle_message (ss : ServerState) (now : ℤ)
    (parsed : Except String Json) (clientId : String) :
    Except PyExc (Option HMOut × ServerState) :=
  let res := ss.rl.is_allowed clientId now
  let ss' : ServerState := { ss with rl := res.2 }
  if res.1 = false then
    .ok (some (.one (JSONRPCResponse.failure none
      (JSONRPCError.from_code ErrorCode.RATE_LIMITED
        (some ("Rate limit exceeded. Retry after "
          ++ toString (res.2.get_reset_time clientId now) ++ "s"))))), ss')
  else
    match parsed with
    | .error e =>
      .ok (some (.one (JSONRPCResponse.failure none
        (JSONRPCError.from_code ErrorCode.PARSE_ERROR (some ("Invalid JSON: " ++ e))))), ss')
    | .ok (.arr items) =>
      match MCPServer.handle_batch ss'.reg ss'.hst items with
      | .error e => .error e
      | .ok (rs, hst') =>
        .ok ((if rs.isEmpty then none else some (.many rs)), { ss' with hst := hst' })
    | .ok j =>
      match MCPServer.handle_single_request ss'.reg ss'.hst j with
      | .error e => .error e
      | .ok (ro, hst') => .ok (ro.map .one, { ss' with hst := hst' })

/-! ## Sandbox (security/sandbox.py)

Paths are modelled by their resolved component lists (`RPath`); the OS
resolver `pathlib.Path.resolve` is an external collaborator and is passed in
as an explicit `resolve` function.  `Path(s)` without `.resolve()` (used for
the protected directories) is the purely lexical `mkParts`. -/

/-- A path as its ordered component list (`pathlib.PurePath.parts`). -/
abbrev RPath := List String

/-- Substring test on character lists (Python `needle in hay`). -/
def isSubList (needle : List Char) : List Char → Bool
  | [] => needle.isEmpty
  | c :: rest => needle.isPrefixOf (c :: rest) || isSubList needle rest

/-- The Python test `".." in path` on the raw input string. -/
def hasDotDot (s : String) : Bool := isSubList [Char.ofNat 46, Char.ofNat 46] s.toList

/-- Splitting a raw path string into components on the Windows separators,
dropping empty components — the lexical part of `pathlib.Path(s)`. -/
def splitSepsAux : List Char → List Char → List String
  | acc, [] => [String.mk acc.reverse]
  | acc, c :: rest =>
    if c = Char.ofNat 92 ∨ c = Char.ofNat 47 then
      String.mk acc.reverse :: splitSepsAux [] rest
    else splitSepsAux (c :: acc) rest

/-- Model of `pathlib.Path(s)` as a component list. -/
def mkParts (s : String) : RPath := (splitSepsAux [] s.toList).filter (fun p => p ≠ "")

/-- The test `child.relative_to(root)` succeeds exactly when the parts of `root`
are a prefix of the parts of `child`. -/
def isDescendant (child root : RPath) : Bool := root.isPrefixOf child

/-- Model of the `PathValidator` state: the two lists are resolved once at
construction. -/
structure PathValidator where
  allowed_paths : List RPath
  blocked_paths : List RPath

/-- Model of `PathValidator.normalize`: resolve (modelled total via `resolve`), then
reject any raw input containing `".."`.  `self` is unused by the source
method and therefore not a parameter. -/
def PathValidator.normalize (resolve : String → RPath) (path : String) :
    Except PyExc RPath :=
  if hasDotDot path then .error (.valueError "Path traversal not allowed")
  else .ok (resolve path)

/-- Model of `PathValidator.is_allowed`: normalization failure is `False`; blocked
roots are checked first and always win; with no allowed roots configured any
non-blocked path passes, otherwise the path must sit under an allowed
root. -/
def PathValidator.is_allowed (v : PathValidator) (resolve : String → RPath)
    (path : String) : Bool :=
  match PathValidator.normalize resolve path with
  | .error _ => false
  | .ok n =>
    if v.blocked_paths.any (fun b => isDescendant n b) then false
    else if v.allowed_paths.isEmpty then true
    else v.allowed_paths.any (fun a => isDescendant n a)

/-- Model of `PathValidator.validate`: normalize (propagating its `ValueError`), then
raise `PermissionError` unless allowed. -/
def PathValidator.validate (v : PathValidator) (resolve : String → RPath)
    (path : String) : Except PyExc RPath :=
  match PathValidator.normalize resolve path with
  | .error e => .error e
  | .ok n =>
    if v.is_allowed resolve path then .ok n
    else .error (.permissionError ("Access denied: " ++ path))

/-- Model of the `Sandbox` configuration (from `SecuritySettings`). -/
structure Sandbox where
  enabled : Bool
  path_validator : PathValidator
  allow_process_management : Bool
  allow_registry_access : Bool
  allow_clipboard_access : Bool

/-- The hard-coded protected directory strings, after the `os.environ.get`
defaults (`env` models `os.environ`). -/
def protectedDirs (env : String → Option String) : List String :=
  [(env "WINDIR").getD "C:\\Windows",
   (env "PROGRAMFILES").getD "C:\\Program Files",
   (env "PROGRAMFILES(X86)").getD "C:\\Program Files (x86)"]

/-- Model of `Sandbox.check_file_access`: with the sandbox disabled only resolve;
otherwise validate against the path policy, and for write/delete refuse any
result under a protected directory (first match raises, regardless of the
allow/block configuration). -/
def Sandbox.check_file_access (sb : Sandbox) (env : String → Option String)
    (resolve : String → RPath) (path : String) (operation : String) :
    Except PyExc RPath :=
  if sb.enabled = false then .ok (resolve path)
  else
    match sb.path_validator.validate resolve path with
    | .error e => .error e
    | .ok vp =>
      if operation = "write" ∨ operation = "delete" then
        match (protectedDirs env).find? (fun d => isDescendant vp (mkParts d)) with
        | some d => .error (.permissionError
            ("Cannot " ++ operation ++ " files in protected directory: " ++ d))
        | none => .ok vp
      else .ok vp

/-- The fixed protected-process set. -/
def protectedProcesses : List String :=
  ["system", "csrss.exe", "wininit.exe", "services.exe",
   "lsass.exe", "smss.exe", "winlogon.exe", "explorer.exe"]

/-- Python truthiness of the optional process name (`None` and `""` are
falsy). -/
def truthyName : Option String → Bool
  | none => false
  | some s => s ≠ ""

/-- Model of `Sandbox.check_process_operation`: everything refused when process
management is off; a `stop` with a truthy name in the protected set is
refused; anything else — including a pid-only stop — is permitted. -/
def Sandbox.check_process_operation (sb : Sandbox) (operation : String)
    (process_name : Option String) (pid : Option Int) : Except PyExc Unit :=
  if sb.allow_process_management = false then
    .error (.permissionError "Process management is disabled")
  else
    if operation = "stop" ∧ truthyName process_name then
      if strLower (process_name.getD "") ∈ protectedProcesses then
        .error (.permissionError
          ("Cannot terminate protected process: " ++ (process_name.getD "")))
      else .ok ()
    else .ok ()

/-! ## Stdio framing loop (server.py `_run_stdio`)

The byte stream is modelled at frame granularity: a list of readline results,
with the body of a frame as one aligned chunk.  An exhausted list models
end-of-stream, where `readline` returns `b""` and `readexactly` raises
`IncompleteReadError`. -/

/-- The outcome of one iteration of the `while self._running` body. -/
inductive StepRes where
  | cont
  | brk
  | handled (msg : String)

/-- Model of `int(header_str.split(":")[1].strip())` for a header that starts with
`Content-Length:` — the text after the first colon up to the next colon,
stripped and parsed (a parse failure raises, and the blanket
`except Exception` keeps the loop going). -/
def parseContentLength (hs : String) : Option Nat :=
  strToNat (String.mk (listTrim ((hs.toList.drop 15).takeWhile (fun c => c ≠ Char.ofNat 58))))

/-- One iteration of the stdio read loop. -/
def stdioStep : List String → StepRes × List String
  | [] => (.cont, [])
  | header :: rest =>
    if header = "" then (.cont, rest)
    else
      let hs := strTrim header
      if strStartsWith hs "Content-Length:" = false then (.cont, rest)
      else
        match parseContentLength hs with
        | none => (.cont, rest)
        | some n =>
          match rest with
          | [] => if n = 0 then (.handled "", []) else (.brk, [])
          | _blank :: rest2 =>
            match rest2 with
            | [] => if n = 0 then (.handled "", []) else (.brk, [])
            | body :: rest3 =>
              if body.length = n then (.handled body, rest3) else (.brk, rest3)

/-- Whether the read loop exits (hits a `break`) within `fuel` iterations on
the given input. -/
def stdioExits : Nat → List String → Bool
  | 0, _ => false
  | fuel + 1, input =>
    match stdioStep input with
    | (.brk, _) => true
    | (_, rest) => stdioExits fuel rest

/-! ## Observations used by the statements below -/

/-- Whether a `handle_message` run produced at least one reply. -/
def hasReplyB : Except PyExc (Option HMOut × ServerState) → Bool
  | .ok (some _, _) => true
  | _ => false

/-- Number of replies a `handle_message` run produced. -/
def replyCount : Except PyExc (Option HMOut × ServerState) → Nat
  | .ok (some (.one _), _) => 1
  | .ok (some (.many rs), _) => rs.length
  | _ => 0

/-- All responses emitted by a `handle_message` run. -/
def allReplies : Except PyExc (Option HMOut × ServerState) → List JSONRPCResponse
  | .ok (some (.one r), _) => [r]
  | .ok (some (.many rs), _) => rs
  | _ => []

/-- Whether the server replies to this batch element: valid non-notification
requests are answered, and so is every element that fails request
validation. -/
def producesReply (j : Json) : Bool :=
  match validateRequest j with
  | .ok req => req.id.isSome
  | .error _ => true

/-- The id carried by the reply to a batch element. -/
def elemRespId (j : Json) : Option RId :=
  match validateRequest j with
  | .ok req => req.id
  | .error _ =>
    match j with
    | .obj kvs =>
      match idOfJson (lookupJ kvs "id") with
      | .ok rid => rid
      | .error _ => none
    | _ => none

/-- A batch element the server can process without crashing: a JSON object
whose raw `id` (if any) is int, str or null. -/
def elemSafe (j : Json) : Bool :=
  match j with
  | .obj kvs =>
    (match idOfJson (lookupJ kvs "id") with
     | .ok _ => true
     | .error _ => false)
  | _ => false

/-- A batch element that is a non-notification in the sense of the spec: an
object carrying a non-null id. -/
def isNonNotifElem (j : Json) : Bool :=
  match j with
  | .obj kvs =>
    (match lookupJ kvs "id" with
     | some (.num _) => true
     | some (.str _) => true
     | _ => false)
  | _ => false

/-- The number of non-notification elements of a batch. -/
def nonNotifCount (items : List Json) : Nat :=
  (items.filter isNonNotifElem).length

/-- The error message a reply carries (empty when there is no reply or no
error). -/
def respErrMsg : Option JSONRPCResponse → String
  | some r => match r.error with | some e => e.message | none => ""
  | none => ""

/-! ## Handler lemmas -/

/-- Notifications never get a response out of `handle_request`, whatever the
method and however the handler finishes. -/
theorem hr_notif (reg : ToolRegistry) (st : HandlerState) (req : JSONRPCRequest)
    (h : req.id = none) :
    (ProtocolHandler.handle_request reg st req).1 = none := by
  unfold ProtocolHandler.handle_request
  by_cases hm : req.method ∈ handlerTable
  · simp only [if_pos hm]
    rcases hd : dispatchMethod reg st req.method (convertParams req.params) with ⟨out, st'⟩
    cases out <;> simp [h]
  · simp [if_neg hm, h]

/-- A non-notification request always gets a response, carrying the
request's id. -/
theorem hr_some_id (reg : ToolRegistry) (st : HandlerState) (req : JSONRPCRequest)
    (i : RId) (h : req.id = some i) :
    ∃ r st', ProtocolHandler.handle_request reg st req = (some r, st')
      ∧ r.id = some i := by
  unfold ProtocolHandler.handle_request
  by_cases hm : req.method ∈ handlerTable
  · simp only [if_pos hm]
    rcases hd : dispatchMethod reg st req.method (convertParams req.params) with ⟨out, st'⟩
    cases out with
    | ok v =>
      refine ⟨JSONRPCResponse.success (some i) v, st', ?_, rfl⟩
      simp [h]
    | error e =>
      refine ⟨JSONRPCResponse.failure (some i) (pyExcToError e), st', ?_, rfl⟩
      simp [h]
  · refine ⟨JSONRPCResponse.failure (some i)
      (JSONRPCError.from_code ErrorCode.METHOD_NOT_FOUND
        (some ("Method not found: " ++ req.method))), st, ?_, rfl⟩
    simp [if_neg hm, h]

/-- Every response `handle_request` builds is a `success` (error absent) or a
`failure` (result absent): the two are never both populated. -/
theorem hr_mutex (reg : ToolRegistry) (st : HandlerState) (req : JSONRPCRequest)
    (r : JSONRPCResponse)
    (h : (ProtocolHandler.handle_request reg st req).1 = some r) :
    r.result = none ∨ r.error = none := by
  unfold ProtocolHandler.handle_request at h
  by_cases hm : req.method ∈ handlerTable
  · simp only [if_pos hm] at h
    rcases hd : dispatchMethod reg st req.method (convertParams req.params) with ⟨out, st'⟩
    rw [hd] at h
    cases out <;> cases hid : req.id <;> simp [hid] at h <;>
      simp [← h, JSONRPCResponse.success, JSONRPCResponse.failure]
  · simp only [if_neg hm] at h
    cases hid : req.id <;> simp [hid] at h
    simp [← h, JSONRPCResponse.failure]

/-- A successful `tools/call` handler run always returns a payload. -/
theorem htc_ok_isSome (reg : ToolRegistry) (p : Option (List (String × Json)))
    (v : Option Json) (h : ProtocolHandler.handle_tools_call reg p = .ok v) :
    v.isSome = true := by
  unfold ProtocolHandler.handle_tools_call at h
  rcases hp : parseToolCallParams p with e | ⟨name, args⟩ <;> rw [hp] at h
  · simp at h
  · by_cases hs : (ToolRegistry.execute_tool reg name args).success = true <;>
      simp [hs] at h <;> simp [← h]

/-- The handler `_handle_initialize` always succeeds with the fixed initialize result. -/
theorem hi_fst (st : HandlerState) (p : Option (List (String × Json))) :
    (ProtocolHandler.handle_initialize st p).1 = .ok (some initializeResultJson) := rfl

/-- The two handlers that return `None` do so unconditionally. -/
theorem dispatch_none_methods (reg : ToolRegistry) (st : HandlerState)
    (m : String) (p : Option (List (String × Json)))
    (h : m = "initialized" ∨ m = "notifications/cancelled") :
    ∃ st', dispatchMethod reg st m p = (.ok none, st') := by
  rcases h with rfl | rfl
  · refine ⟨{ st with initialized := true }, ?_⟩
    unfold dispatchMethod
    rw [if_neg (by decide), if_pos rfl]
  · refine ⟨st, ?_⟩
    unfold dispatchMethod
    rw [if_neg (by decide), if_neg (by decide), if_neg (by decide), if_neg (by decide),
        if_pos rfl]

/-- Every handler other than the two `None`-returning ones produces a payload
when it succeeds. -/
theorem dispatch_ok_isSome (reg : ToolRegistry) (st : HandlerState)
    (m : String) (p : Option (List (String × Json))) (v : Option Json)
    (st' : HandlerState) (hm : m ∈ handlerTable)
    (h1 : m ≠ "initialized") (h2 : m ≠ "notifications/cancelled")
    (hd : dispatchMethod reg st m p = (.ok v, st')) : v.isSome = true := by
  simp only [handlerTable, List.mem_cons, List.not_mem_nil, or_false] at hm
  rcases hm with rfl | rfl | rfl | rfl | rfl | rfl
  · unfold dispatchMethod at hd
    rw [if_pos rfl] at hd
    have h3 : (ProtocolHandler.handle_initialize st p).1 = .ok v := congrArg Prod.fst hd
    rw [hi_fst] at h3
    cases h3
    rfl
  · exact absurd rfl h1
  · unfold dispatchMethod at hd
    rw [if_neg (by decide), if_neg (by decide), if_pos rfl] at hd
    have h3 : ProtocolHandler.handle_tools_list reg = .ok v := congrArg Prod.fst hd
    unfold ProtocolHandler.handle_tools_list at h3
    rcases hld : ToolRegistry.list_defs reg.tools with e | ds <;> rw [hld] at h3
    · simp at h3
    · simp only [Except.ok.injEq] at h3
      rw [← h3]
      rfl
  · unfold dispatchMethod at hd
    rw [if_neg (by decide), if_neg (by decide), if_neg (by decide), if_pos rfl] at hd
    have h3 : ProtocolHandler.handle_tools_call reg p = .ok v := congrArg Prod.fst hd
    exact htc_ok_isSome reg p v h3
  · exact absurd rfl h2
  · unfold dispatchMethod at hd
    rw [if_neg (by decide), if_neg (by decide), if_neg (by decide), if_neg (by decide),
        if_neg (by decide)] at hd
    have h3 : (Except.ok (some (Json.obj [("status", Json.str "ok")])) : Except PyExc (Option Json)) = .ok v :=
      congrArg Prod.fst hd
    cases h3
    rfl

/-! ## Server-level lemmas -/

/-- Any response delivered by `_handle_single_request` keeps result and error
mutually exclusive. -/
theorem hsr_mutex (reg : ToolRegistry) (hst : HandlerState) (j : Json)
    (r : JSONRPCResponse) (ro : Option JSONRPCResponse) (hst' : HandlerState)
    (h : MCPServer.handle_single_request reg hst j = .ok (ro, hst'))
    (hr : ro = some r) :
    r.result = none ∨ r.error = none := by
  unfold MCPServer.handle_single_request at h
  rcases hv : validateRequest j with e | req <;> rw [hv] at h
  · cases j
    case obj kvs =>
      dsimp only at h
      rcases hio : idOfJson (lookupJ kvs "id") with e' | rid <;> rw [hio] at h <;>
        dsimp only at h
      · simp at h
      · simp only [Except.ok.injEq, Prod.mk.injEq] at h
        rw [hr] at h
        obtain ⟨h1, _⟩ := h
        simp only [Option.some.injEq] at h1
        left
        rw [← h1]
        rfl
    all_goals simp at h
  · simp only [Except.ok.injEq] at h
    refine hr_mutex reg hst req r ?_
    rw [h, hr]

/-- Batch replies keep result and error mutually exclusive, element by
element. -/
theorem hb_mutex (reg : ToolRegistry) :
    ∀ (items : List Json) (hst : HandlerState) (rs : List JSONRPCResponse)
      (hst' : HandlerState),
      MCPServer.handle_batch reg hst items = .ok (rs, hst') →
      ∀ r ∈ rs, r.result = none ∨ r.error = none := by
  intro items
  induction items with
  | nil =>
    intro hst rs hst' h r hr
    simp only [MCPServer.handle_batch, Except.ok.injEq, Prod.mk.injEq] at h
    rw [← h.1] at hr
    simp at hr
  | cons j rest ih =>
    intro hst rs hst' h r hr
    unfold MCPServer.handle_batch at h
    rcases hs : MCPServer.handle_single_request reg hst j with e | ⟨ro, hst1⟩ <;>
      rw [hs] at h <;> dsimp only at h
    · simp at h
    · rcases hb : MCPServer.handle_batch reg hst1 rest with e | ⟨rs2, hst2⟩ <;>
        rw [hb] at h <;> dsimp only at h
      · simp at h
      · simp only [Except.ok.injEq, Prod.mk.injEq] at h
        rw [← h.1] at hr
        rcases List.mem_append.mp hr with hone | hrest
        · cases hro : ro with
          | none => rw [hro] at hone; simp at hone
          | some r0 =>
            rw [hro] at hone
            simp only [List.mem_singleton] at hone
            rw [hone]
            exact hsr_mutex reg hst j r0 ro hst1 hs hro
        · exact ih hst1 rs2 hst2 hb r hrest

/-- A safe batch element never crashes `_handle_single_request`, is answered
exactly when it is a valid non-notification or fails validation, and the
reply carries the id of the element. -/
theorem hsr_safe (reg : ToolRegistry) (hst : HandlerState) (j : Json)
    (hsafe : elemSafe j = true) :
    ∃ ro hst', MCPServer.handle_single_request reg hst j = .ok (ro, hst')
      ∧ ro.isSome = producesReply j
      ∧ (∀ r, ro = some r → r.id = elemRespId j) := by
  unfold MCPServer.handle_single_request
  rcases hv : validateRequest j with e | req
  · cases j
    case obj kvs =>
      rcases hio : idOfJson (lookupJ kvs "id") with e' | rid
      · unfold elemSafe at hsafe
        dsimp only at hsafe
        rw [hio] at hsafe
        simp at hsafe
      · refine ⟨some (JSONRPCResponse.failure rid
          (JSONRPCError.from_code ErrorCode.INVALID_REQUEST (some e))), hst, ?_, ?_, ?_⟩
        · dsimp only
          rw [hio]
        · unfold producesReply
          rw [hv]
          rfl
        · intro r hr
          simp only [Option.some.injEq] at hr
          rw [← hr]
          unfold elemRespId
          rw [hv]
          dsimp only
          rw [hio]
          rfl
    all_goals unfold elemSafe at hsafe
    all_goals simp at hsafe
  · rcases hhr : ProtocolHandler.handle_request reg hst req with ⟨ro, hst1⟩
    refine ⟨ro, hst1, ?_, ?_, ?_⟩
    · dsimp only
      rw [hhr]
    · unfold producesReply
      rw [hv]
      dsimp only
      cases hid : req.id with
      | none =>
        have h1 := hr_notif reg hst req hid
        rw [hhr] at h1
        dsimp only at h1
        rw [h1]
        rfl
      | some i =>
        obtain ⟨r, st2, heq, _⟩ := hr_some_id reg hst req i hid
        rw [hhr] at heq
        simp only [Prod.mk.injEq] at heq
        rw [heq.1]
        rfl
    · intro r hr
      cases hid : req.id with
      | none =>
        have h1 := hr_notif reg hst req hid
        rw [hhr] at h1
        dsimp only at h1
        rw [h1] at hr
        simp at hr
      | some i =>
        obtain ⟨r2, st2, heq, hrid⟩ := hr_some_id reg hst req i hid
        rw [hhr] at heq
        simp only [Prod.mk.injEq] at heq
        have hrr : r = r2 := by
          rw [hr] at heq
          exact Option.some.inj heq.1
        unfold elemRespId
        rw [hv]
        dsimp only
        rw [hrr, hrid, hid]

/-- The batch loop on safe elements: no crash, one reply per reply-producing
element, replies in input order (witnessed by the id sequence). -/
theorem hb_spec (reg : ToolRegistry) :
    ∀ (items : List Json) (hst : HandlerState),
      (∀ j ∈ items, elemSafe j = true) →
      ∃ rs hst', MCPServer.handle_batch reg hst items = .ok (rs, hst')
        ∧ rs.length = (items.filter producesReply).length
        ∧ rs.map (fun r => r.id) = (items.filter producesReply).map elemRespId := by
  intro items
  induction items with
  | nil =>
    intro hst _
    exact ⟨[], hst, rfl, rfl, rfl⟩
  | cons j rest ih =>
    intro hst hsafe
    obtain ⟨ro, hst1, hs, hiso, hid⟩ :=
      hsr_safe reg hst j (hsafe j (List.mem_cons_self j rest))
    obtain ⟨rs, hst2, hb, hlen, hmap⟩ :=
      ih hst1 (fun x hx => hsafe x (List.mem_cons_of_mem j hx))
    cases hro : ro with
    | none =>
      have hpr : producesReply j = false := by rw [← hiso, hro]; rfl
      have hfil : List.filter producesReply (j :: rest) = List.filter producesReply rest := by
        simp [List.filter_cons, hpr]
      refine ⟨rs, hst2, ?_, ?_, ?_⟩
      · unfold MCPServer.handle_batch
        rw [hs]
        dsimp only
        rw [hb]
        dsimp only
        rw [hro]
        rfl
      · rw [hfil]
        exact hlen
      · rw [hfil]
        exact hmap
    | some r =>
      have hpr : producesReply j = true := by rw [← hiso, hro]; rfl
      have hfil : List.filter producesReply (j :: rest) = j :: List.filter producesReply rest := by
        simp [List.filter_cons, hpr]
      refine ⟨r :: rs, hst2, ?_, ?_, ?_⟩
      · unfold MCPServer.handle_batch
        rw [hs]
        dsimp only
        rw [hb]
        dsimp only
        rw [hro]
        rfl
      · rw [hfil]
        simp [hlen]
      · rw [hfil]
        simp only [List.map_cons]
        rw [hmap, hid r hro]

/-! ## Rate limiter lemmas -/

/-- A bucket whose entries are all inside the window is untouched by the
prune. -/
theorem filter_all_keep {l : List ℤ} {t w : ℤ} (h : ∀ x ∈ l, t - w < x) :
    l.filter (fun ts => t - w < ts) = l := by
  apply List.filter_eq_self.mpr
  intro a ha
  exact decide_eq_true (h a ha)

/-- The update `setBucket` only changes the buckets. -/
theorem setBucket_max (rl : RateLimiter) (cl : String) (l : List ℤ) :
    (RateLimiter.setBucket rl cl l).max_requests = rl.max_requests := rfl

/-- The update `setBucket` only changes the buckets. -/
theorem setBucket_window (rl : RateLimiter) (cl : String) (l : List ℤ) :
    (RateLimiter.setBucket rl cl l).window_seconds = rl.window_seconds := rfl

/-- The core sliding-window invariant: starting from a bucket `l` none of
whose entries expire during the call sequence, the first `max_requests −
|l|` calls are admitted, every further call is rejected, and the bucket ends
as `l` extended by exactly the admitted timestamps. -/
theorem runCalls_invariant (c : String) :
    ∀ (ts : List ℤ) (rl : RateLimiter) (l : List ℤ),
      rl.buckets c = l →
      (∀ x ∈ l, ∀ t ∈ ts, t - rl.window_seconds < x) →
      (∀ s ∈ ts, ∀ t ∈ ts, t - rl.window_seconds < s) →
      (RateLimiter.runCalls rl c ts).1
          = (List.range ts.length).map (fun i => decide (l.length + i < rl.max_requests))
      ∧ ((RateLimiter.runCalls rl c ts).2).buckets c
          = l ++ ts.take (rl.max_requests - l.length) := by
  intro ts
  induction ts with
  | nil =>
    intro rl l hl _ _
    refine ⟨rfl, ?_⟩
    simp [RateLimiter.runCalls, hl]
  | cons t ts ih =>
    intro rl l hl hbl hts
    have hfil : (rl.buckets c).filter (fun x => t - rl.window_seconds < x) = l := by
      rw [hl]
      exact filter_all_keep (fun x hx => hbl x hx t (List.mem_cons_self t ts))
    have hcons : RateLimiter.runCalls rl c (t :: ts)
        = ((rl.is_allowed c t).1 :: ((rl.is_allowed c t).2.runCalls c ts).1,
           ((rl.is_allowed c t).2.runCalls c ts).2) := rfl
    by_cases hN : rl.max_requests ≤ l.length
    · have hstep : rl.is_allowed c t = (false, rl.setBucket c l) := by
        unfold RateLimiter.is_allowed
        rw [hfil, if_pos hN]
      have hbl' : ∀ x ∈ l, ∀ s ∈ ts, s - (rl.setBucket c l).window_seconds < x :=
        fun x hx s hs => hbl x hx s (List.mem_cons_of_mem t hs)
      have hts' : ∀ s ∈ ts, ∀ u ∈ ts, u - (rl.setBucket c l).window_seconds < s :=
        fun s hs u hu => hts s (List.mem_cons_of_mem t hs) u (List.mem_cons_of_mem t hu)
      obtain ⟨ih1, ih2⟩ := ih (rl.setBucket c l) l (by simp [RateLimiter.setBucket]) hbl' hts'
      simp only [setBucket_max] at ih1 ih2
      have hrun : RateLimiter.runCalls rl c (t :: ts)
          = ((false :: (RateLimiter.runCalls (rl.setBucket c l) c ts).1),
             (RateLimiter.runCalls (rl.setBucket c l) c ts).2) := by
        rw [hcons, hstep]
      refine ⟨?_, ?_⟩
      · rw [hrun, List.length_cons, List.range_succ_eq_map, List.map_cons, List.map_map]
        have h0 : decide (l.length + 0 < rl.max_requests) = false := by
          simp
          omega
        rw [h0, ih1]
        refine congrArg (List.cons false) (List.map_congr_left ?_)
        intro i _
        simp only [Function.comp_apply]
        have h1 : ¬ (l.length + i < rl.max_requests) := by omega
        have h2 : ¬ (l.length + Nat.succ i < rl.max_requests) := by omega
        simp [h1, h2]
      · rw [hrun]
        dsimp only
        rw [ih2]
        have hz : rl.max_requests - l.length = 0 := by omega
        rw [hz]
        simp
    · push_neg at hN
      have hstep : rl.is_allowed c t = (true, rl.setBucket c (l ++ [t])) := by
        unfold RateLimiter.is_allowed
        rw [hfil, if_neg (by omega)]
      have hbl' : ∀ x ∈ l ++ [t], ∀ s ∈ ts,
          s - (rl.setBucket c (l ++ [t])).window_seconds < x := by
        intro x hx s hs
        rcases List.mem_append.mp hx with hxl | hxt
        · exact hbl x hxl s (List.mem_cons_of_mem t hs)
        · simp only [List.mem_singleton] at hxt
          rw [hxt]
          exact hts t (List.mem_cons_self t ts) s (List.mem_cons_of_mem t hs)
      have hts' : ∀ s ∈ ts, ∀ u ∈ ts, u - (rl.setBucket c (l ++ [t])).window_seconds < s :=
        fun s hs u hu => hts s (List.mem_cons_of_mem t hs) u (List.mem_cons_of_mem t hu)
      obtain ⟨ih1, ih2⟩ := ih (rl.setBucket c (l ++ [t])) (l ++ [t])
        (by simp [RateLimiter.setBucket]) hbl' hts'
      simp only [setBucket_max] at ih1 ih2
      have hrun : RateLimiter.runCalls rl c (t :: ts)
          = ((true :: (RateLimiter.runCalls (rl.setBucket c (l ++ [t])) c ts).1),
             (RateLimiter.runCalls (rl.setBucket c (l ++ [t])) c ts).2) := by
        rw [hcons, hstep]
      refine ⟨?_, ?_⟩
      · rw [hrun, List.length_cons, List.range_succ_eq_map, List.map_cons, List.map_map]
        have h0 : decide (l.length + 0 < rl.max_requests) = true := by
          simp
          omega
        rw [h0, ih1]
        refine congrArg (List.cons true) (List.map_congr_left ?_)
        intro i _
        simp only [Function.comp_apply, List.length_append, List.length_singleton]
        have harith : l.length + 1 + i = l.length + Nat.succ i := by omega
        rw [harith]
      · rw [hrun]
        dsimp only
        rw [ih2]
        have harith : rl.max_requests - l.length
            = (rl.max_requests - (l ++ [t]).length) + 1 := by
          simp only [List.length_append, List.length_singleton]
          omega
        rw [harith, List.take_succ_cons]
        simp

/-! ## Sandbox lemmas -/

/-- Truthiness of the optional process name, unfolded. -/
theorem truthyName_iff (pn : Option String) :
    truthyName pn = true ↔ ∃ n, pn = some n ∧ n ≠ "" := by
  cases pn <;> simp [truthyName]

/-- Behaviour of `normalize` on a raw string containing `".."`. -/
theorem normalize_dotdot (resolve : String → RPath) (path : String)
    (h : hasDotDot path = true) :
    PathValidator.normalize resolve path
      = .error (.valueError "Path traversal not allowed") := by
  unfold PathValidator.normalize
  simp [h]

/-- Behaviour of `normalize` on a traversal-free raw string. -/
theorem normalize_clean (resolve : String → RPath) (path : String)
    (h : hasDotDot path = false) :
    PathValidator.normalize resolve path = .ok (resolve path) := by
  unfold PathValidator.normalize
  simp [h]

/-! ## Claim theorems -/

/-- C10: `check_process_operation` raises `PermissionError` exactly when
process management is disabled, or the operation is `"stop"` with a truthy
(non-empty) `process_name` whose lowercase form is in the fixed
protected-process set; in particular a pid-only stop (with
`process_name = None`) is always permitted when process management is
enabled, whatever pid is given. -/
theorem c10_check_process_operation :
    (∀ (sb : Sandbox) (op : String) (pn : Option String) (pid : Option Int),
      (∃ m, sb.check_process_operation op pn pid = .error (.permissionError m))
        ↔ (sb.allow_process_management = false
           ∨ (op = "stop" ∧ ∃ n, pn = some n ∧ n ≠ "" ∧ strLower n ∈ protectedProcesses)))
    ∧ (∀ (sb : Sandbox) (pid : Option Int), sb.allow_process_management = true →
        sb.check_process_operation "stop" none pid = .ok ()) := by
  constructor
  · intro sb op pn pid
    unfold Sandbox.check_process_operation
    by_cases hm : sb.allow_process_management = false
    · rw [if_pos hm]
      constructor
      · intro _
        exact Or.inl hm
      · intro _
        exact ⟨"Process management is disabled", rfl⟩
    · rw [if_neg hm]
      have hm' : sb.allow_process_management = true := by
        simp at hm
        exact hm
      by_cases h1 : op = "stop" ∧ truthyName pn = true
      · rw [if_pos h1]
        obtain ⟨n, hn, hne⟩ := (truthyName_iff pn).mp h1.2
        by_cases h2 : strLower (pn.getD "") ∈ protectedProcesses
        · rw [if_pos h2]
          constructor
          · intro _
            refine Or.inr ⟨h1.1, n, hn, hne, ?_⟩
            rw [hn] at h2
            exact h2
          · intro _
            exact ⟨_, rfl⟩
        · rw [if_neg h2]
          constructor
          · rintro ⟨m, hf⟩
            cases hf
          · rintro (hf | ⟨_, n', hn', _, hmem'⟩)
            · rw [hf] at hm'
              cases hm'
            · exfalso
              apply h2
              rw [hn']
              exact hmem'
      · rw [if_neg h1]
        constructor
        · rintro ⟨m, hf⟩
          cases hf
        · rintro (hf | ⟨hop, n', hn', hne', _⟩)
          · rw [hf] at hm'
            cases hm'
          · exact absurd ⟨hop, (truthyName_iff pn).mpr ⟨n', hn', hne'⟩⟩ h1
  · intro sb pid hm
    unfold Sandbox.check_process_operation
    rw [if_neg (by rw [hm]; simp)]
    rw [if_neg (by rintro ⟨_, ht⟩; cases ht)]

/-- A sandbox with everything enabled and no path policy, for witnesses. -/
def sbAll : Sandbox :=
  { enabled := true, path_validator := { allowed_paths := [], blocked_paths := [] },
    allow_process_management := true, allow_registry_access := true,
    allow_clipboard_access := true }

/-- Witness for C10: stopping `LSASS.exe` by name is refused while the same
stop addressed only by pid is permitted. -/
theorem c10_witness :
    (∃ m, sbAll.check_process_operation "stop" (some "LSASS.exe") none
        = .error (.permissionError m))
    ∧ sbAll.check_process_operation "stop" none (some 4) = .ok () :=
  ⟨(c10_check_process_operation.1 sbAll "stop" (some "LSASS.exe") none).mpr
      (Or.inr ⟨rfl, "LSASS.exe", rfl, by decide, by decide⟩),
   c10_check_process_operation.2 sbAll (some 4) rfl⟩

/-- C3: any input string containing `".."` is rejected by the `PathValidator`
— `normalize` raises `ValueError` and `is_allowed` returns false — for every
allowed/blocked configuration and for every resolver, because the check runs
on the raw string before any resolution is consulted. -/
theorem c3_dotdot_rejected (v : PathValidator) (resolve : String → RPath)
    (path : String) (h : hasDotDot path = true) :
    PathValidator.normalize resolve path
      = .error (.valueError "Path traversal not allowed")
    ∧ v.is_allowed resolve path = false := by
  refine ⟨normalize_dotdot resolve path h, ?_⟩
  unfold PathValidator.is_allowed
  rw [normalize_dotdot resolve path h]

/-- Witness for C3 at a concrete traversal string and a configuration that
allow-lists a prefix of the string itself. -/
theorem c3_witness :
    hasDotDot "C:\\Temp\\..\\Windows\\x" = true
    ∧ PathValidator.normalize mkParts "C:\\Temp\\..\\Windows\\x"
        = .error (.valueError "Path traversal not allowed")
    ∧ PathValidator.is_allowed
        { allowed_paths := [mkParts "C:\\Temp"], blocked_paths := [] }
        mkParts "C:\\Temp\\..\\Windows\\x" = false := by
  have h := c3_dotdot_rejected
    { allowed_paths := [mkParts "C:\\Temp"], blocked_paths := [] }
    mkParts "C:\\Temp\\..\\Windows\\x" (by decide)
  exact ⟨by decide, h.1, h.2⟩

/-- C2: with the sandbox enabled, a `write` (or `delete`) of any path that
resolves under one of the protected OS directories is refused, whatever the
allow/block configuration — the result is an error for every input, and a
`PermissionError` for every input that passes the raw traversal check. -/
theorem c2_protected_write (sb : Sandbox) (env : String → Option String)
    (resolve : String → RPath) (path op : String)
    (hen : sb.enabled = true) (hop : op = "write" ∨ op = "delete")
    (hprot : (protectedDirs env).any
        (fun d => isDescendant (resolve path) (mkParts d)) = true) :
    (∃ e, sb.check_file_access env resolve path op = .error e)
    ∧ (hasDotDot path = false →
        ∃ m, sb.check_file_access env resolve path op = .error (.permissionError m)) := by
  unfold Sandbox.check_file_access
  rw [if_neg (by rw [hen]; simp)]
  cases hdd : hasDotDot path with
  | true =>
    have hval : sb.path_validator.validate resolve path
        = .error (.valueError "Path traversal not allowed") := by
      unfold PathValidator.validate
      rw [normalize_dotdot resolve path hdd]
    rw [hval]
    exact ⟨⟨_, rfl⟩, fun hf => absurd hf (by simp)⟩
  | false =>
    by_cases hia : sb.path_validator.is_allowed resolve path = true
    · have hval : sb.path_validator.validate resolve path = .ok (resolve path) := by
        unfold PathValidator.validate
        rw [normalize_clean resolve path hdd]
        dsimp only
        rw [if_pos hia]
      rw [hval]
      dsimp only
      rw [if_pos hop]
      obtain ⟨d, hd, hdp⟩ := List.any_eq_true.mp hprot
      have hfind : ((protectedDirs env).find?
          (fun d => isDescendant (resolve path) (mkParts d))).isSome := by
        rw [List.find?_isSome]
        exact ⟨d, hd, hdp⟩
      obtain ⟨d', hd'⟩ := Option.isSome_iff_exists.mp hfind
      rw [hd']
      exact ⟨⟨_, rfl⟩, fun _ => ⟨_, rfl⟩⟩
    · have hval : sb.path_validator.validate resolve path
          = .error (.permissionError ("Access denied: " ++ path)) := by
        unfold PathValidator.validate
        rw [normalize_clean resolve path hdd]
        dsimp only
        rw [if_neg hia]
      rw [hval]
      exact ⟨⟨_, rfl⟩, fun _ => ⟨_, rfl⟩⟩

/-- A sandbox that explicitly allow-lists a subtree of the Windows
directory, for the C2 witness. -/
def sbAllowTemp : Sandbox :=
  { enabled := true,
    path_validator :=
      { allowed_paths := [mkParts "C:\\Windows\\Temp"], blocked_paths := [] },
    allow_process_management := true, allow_registry_access := true,
    allow_clipboard_access := true }

/-- Witness for C2: a path that is a descendant of a configured allowed root
and also sits under the Windows directory is still refused for `write` with
`PermissionError`. -/
theorem c2_witness :
    PathValidator.is_allowed sbAllowTemp.path_validator mkParts
        "C:\\Windows\\Temp\\x.txt" = true
    ∧ (∃ m, sbAllowTemp.check_file_access (fun _ => none) mkParts
        "C:\\Windows\\Temp\\x.txt" "write" = .error (.permissionError m)) := by
  have h := c2_protected_write sbAllowTemp (fun _ => none) mkParts
    "C:\\Windows\\Temp\\x.txt" "write" rfl (Or.inl rfl) (by decide)
  exact ⟨by decide, h.2 (by decide)⟩

/-- C9: the stdio read loop never exits at a clean end-of-stream — the empty
`readline` result takes the `continue` branch — although end-of-stream in the
middle of a frame does break the loop via `IncompleteReadError`.  This
contradicts the specified behaviour (clean EOF terminates the read loop), so
the claim marks a code bug. -/
theorem c9_eof_loop :
    (∀ fuel, stdioExits fuel [] = false)
    ∧ stdioExits 1 ["Content-Length: 5"] = true := by
  constructor
  · intro fuel
    induction fuel with
    | zero => rfl
    | succ k ih =>
      have hstep : stdioStep [] = (StepRes.cont, []) := rfl
      simp only [stdioExits, hstep]
      exact ih
  · decide

/-- C4: the sliding-window rate limiter admits exactly the first
`max_requests` calls of any in-window call sequence for a fresh client and
rejects the rest without recording them; a client whose retained timestamps
have all aged past the window is admitted again, as is a client after
`reset`; and distinct client identities neither observe nor disturb each
other buckets. -/
theorem c4_rate_limiter :
    (∀ (n : Nat) (w : ℤ) (c : String) (ts : List ℤ),
       (∀ s ∈ ts, ∀ t ∈ ts, t - w < s) →
       (RateLimiter.runCalls (RateLimiter.fresh n w) c ts).1
           = (List.range ts.length).map (fun i => decide (i < n))
       ∧ ((RateLimiter.runCalls (RateLimiter.fresh n w) c ts).2).buckets c
           = ts.take n)
    ∧ (∀ (rl : RateLimiter) (c : String) (now : ℤ), 0 < rl.max_requests →
        (∀ x ∈ rl.buckets c, x ≤ now - rl.window_seconds) →
        (rl.is_allowed c now).1 = true)
    ∧ (∀ (rl : RateLimiter) (c : String) (now : ℤ), 0 < rl.max_requests →
        ((rl.reset c).is_allowed c now).1 = true)
    ∧ (∀ (rl : RateLimiter) (c c' : String) (now : ℤ), c ≠ c' →
        ((rl.is_allowed c now).2).buckets c' = rl.buckets c')
    ∧ (∀ (rl rl' : RateLimiter) (c : String) (now : ℤ),
        rl.max_requests = rl'.max_requests →
        rl.window_seconds = rl'.window_seconds →
        rl.buckets c = rl'.buckets c →
        (rl.is_allowed c now).1 = (rl'.is_allowed c now).1) := by
  refine ⟨?_, ?_, ?_, ?_, ?_⟩
  · intro n w c ts hts
    obtain ⟨h1, h2⟩ := runCalls_invariant c ts (RateLimiter.fresh n w) [] rfl
      (by intro x hx; cases hx) hts
    constructor
    · rw [h1]
      apply List.map_congr_left
      intro i _
      simp [RateLimiter.fresh]
    · rw [h2]
      simp [RateLimiter.fresh]
  · intro rl c now hmax hall
    unfold RateLimiter.is_allowed
    have hfil : (rl.buckets c).filter (fun ts => now - rl.window_seconds < ts) = [] := by
      simp only [List.filter_eq_nil_iff]
      intro a ha
      have := hall a ha
      simp
      linarith
    rw [hfil, if_neg (by simp; omega)]
  · intro rl c now hmax
    unfold RateLimiter.is_allowed RateLimiter.reset
    have hb : ((rl.setBucket c []).buckets c) = [] := by
      simp [RateLimiter.setBucket]
    rw [hb]
    rw [if_neg (by simp [setBucket_max]; omega)]
  · intro rl c c' now hne
    unfold RateLimiter.is_allowed
    by_cases hc : rl.max_requests ≤
        ((rl.buckets c).filter (fun ts => now - rl.window_seconds < ts)).length
    · rw [if_pos hc]
      simp [RateLimiter.setBucket, Ne.symm hne]
    · rw [if_neg hc]
      simp [RateLimiter.setBucket, Ne.symm hne]
  · intro rl rl' c now hmax hwin hbuck
    unfold RateLimiter.is_allowed
    rw [hbuck, hwin, hmax]
    by_cases hc : rl'.max_requests ≤
        ((rl'.buckets c).filter (fun ts => now - rl'.window_seconds < ts)).length
    · simp only [if_pos hc]
    · simp only [if_neg hc]

/-- Witness for C4 at `max_requests = 2` and three in-window calls: the
admission pattern is exactly two admissions then a rejection, and the third
timestamp is not recorded. -/
theorem c4_witness :
    (RateLimiter.runCalls (RateLimiter.fresh 2 60) "client1" [0, 1, 2]).1
        = (List.range ([(0 : ℤ), 1, 2]).length).map (fun i => decide (i < 2))
    ∧ ((RateLimiter.runCalls (RateLimiter.fresh 2 60) "client1" [0, 1, 2]).2).buckets "client1"
        = ([(0 : ℤ), 1, 2]).take 2 :=
  c4_rate_limiter.1 2 60 "client1" [0, 1, 2] (by decide)

/-- C5: a `tools/call` whose params validate always produces a structurally
valid tool-call result — one text content block plus `isError` — with
`isError = true` both for a nonexistent tool and for a tool whose execution
raises; and through `handle_request` the caller receives a JSON-RPC *success*
response carrying that result, never a protocol-level error. -/
theorem c5_tools_call_shape :
    (∀ (reg : ToolRegistry) (p : Option (List (String × Json))) (name : String)
       (args : List (String × Json)),
       parseToolCallParams p = .ok (name, args) →
       ∃ text isErr, ProtocolHandler.handle_tools_call reg p
         = .ok (some (tcrJson text isErr)))
    ∧ (∀ (reg : ToolRegistry) (p : Option (List (String × Json))) (name : String)
        (args : List (String × Json)),
        parseToolCallParams p = .ok (name, args) →
        reg.tools.find? (fun t => t.name = name) = none →
        ProtocolHandler.handle_tools_call reg p
          = .ok (some (tcrJson ("Tool not found: " ++ name) true)))
    ∧ (∀ (reg : ToolRegistry) (p : Option (List (String × Json))) (name : String)
        (args : List (String × Json)) (t : MTool) (e : PyExc),
        parseToolCallParams p = .ok (name, args) →
        reg.tools.find? (fun tl => tl.name = name) = some t →
        t.execute args = .error e →
        ∃ msg, ProtocolHandler.handle_tools_call reg p
          = .ok (some (tcrJson msg true)))
    ∧ (∀ (reg : ToolRegistry) (st : HandlerState) (ps : Params) (name : String)
        (args : List (String × Json)) (i : RId),
        parseToolCallParams (convertParams ps) = .ok (name, args) →
        ∃ text isErr st',
          ProtocolHandler.handle_request reg st
              { id := some i, method := "tools/call", params := ps }
            = (some (JSONRPCResponse.success (some i) (some (tcrJson text isErr))), st')) := by
  have hK1 : ∀ (reg : ToolRegistry) (p : Option (List (String × Json))) (name : String)
      (args : List (String × Json)),
      parseToolCallParams p = .ok (name, args) →
      ∃ text isErr, ProtocolHandler.handle_tools_call reg p
        = .ok (some (tcrJson text isErr)) := by
    intro reg p name args hp
    unfold ProtocolHandler.handle_tools_call
    rw [hp]
    dsimp only
    by_cases hs : (ToolRegistry.execute_tool reg name args).success = true
    · rw [if_pos hs]
      exact ⟨_, _, rfl⟩
    · rw [if_neg hs]
      exact ⟨_, _, rfl⟩
  refine ⟨hK1, ?_, ?_, ?_⟩
  · intro reg p name args hp hfind
    unfold ProtocolHandler.handle_tools_call
    rw [hp]
    dsimp only
    have hexec : ToolRegistry.execute_tool reg name args
        = MToolResult.fail ("Tool not found: " ++ name) := by
      unfold ToolRegistry.execute_tool
      rw [hfind]
    rw [hexec]
    have hne : ("Tool not found: " ++ name) ≠ "" := by
      intro hcontra
      have hlen := congrArg String.length hcontra
      rw [String.length_append] at hlen
      have h16 : ("Tool not found: ").length = 16 := rfl
      rw [h16] at hlen
      simp at hlen
    rw [if_neg (by simp [MToolResult.fail])]
    simp [MToolResult.fail, orUnknown, hne]
  · intro reg p name args t e hp hfind hex
    unfold ProtocolHandler.handle_tools_call
    rw [hp]
    dsimp only
    have hexec : ToolRegistry.execute_tool reg name args = BaseTool.safe_execute t args := by
      unfold ToolRegistry.execute_tool
      rw [hfind]
    have hfail : ∃ m', BaseTool.safe_execute t args = MToolResult.fail m' := by
      unfold BaseTool.safe_execute
      rw [hex]
      cases e <;> exact ⟨_, rfl⟩
    obtain ⟨m', hm'⟩ := hfail
    rw [hexec, hm']
    rw [if_neg (by simp [MToolResult.fail])]
    exact ⟨_, rfl⟩
  · intro reg st ps name args i hp
    obtain ⟨text, isErr, htc⟩ := hK1 reg (convertParams ps) name args hp
    refine ⟨text, isErr, st, ?_⟩
    unfold ProtocolHandler.handle_request
    dsimp only
    rw [if_pos (by decide : ("tools/call" : String) ∈ handlerTable)]
    have hdm : dispatchMethod reg st "tools/call" (convertParams ps)
        = (ProtocolHandler.handle_tools_call reg (convertParams ps), st) := by
      unfold dispatchMethod
      rw [if_neg (by decide), if_neg (by decide), if_neg (by decide), if_pos rfl]
    rw [hdm, htc]
    rfl

/-- Witness for C5: calling the tool name `nonexistent_tool` against an empty
registry yields the `isError = true` single-text-block result. -/
theorem c5_witness :
    ProtocolHandler.handle_tools_call { tools := [] }
        (some [("name", Json.str "nonexistent_tool"), ("arguments", Json.obj [])])
      = .ok (some (tcrJson ("Tool not found: " ++ "nonexistent_tool") true)) :=
  c5_tools_call_shape.2.1 { tools := [] }
    (some [("name", Json.str "nonexistent_tool"), ("arguments", Json.obj [])])
    "nonexistent_tool" [] rfl rfl

/-- C7 (amended): every response the server emits keeps `result` and `error`
mutually exclusive, and responses to methods other than the two
`None`-returning handlers carry exactly one of them; but a non-notification
`initialized` or `notifications/cancelled` request is answered with a
response in which `result` and `error` are both null, so "exactly one is
present" does not hold for those two methods. -/
theorem c7_envelope :
    (∀ (ss : ServerState) (now : ℤ) (parsed : Except String Json) (c : String)
       (r : JSONRPCResponse),
       r ∈ allReplies (MCPServer.handle_message ss now parsed c) →
       r.result = none ∨ r.error = none)
    ∧ (∀ (reg : ToolRegistry) (st : HandlerState) (req : JSONRPCRequest)
        (r : JSONRPCResponse),
        (ProtocolHandler.handle_request reg st req).1 = some r →
        (req.method ≠ "initialized" → req.method ≠ "notifications/cancelled" →
          r.result.isSome = !r.error.isSome)
        ∧ ((req.method = "initialized" ∨ req.method = "notifications/cancelled") →
          r.result = none ∧ r.error = none)) := by
  constructor
  · intro ss now parsed c r hr
    unfold MCPServer.handle_message at hr
    dsimp only at hr
    by_cases hrl : (ss.rl.is_allowed c now).1 = false
    · rw [if_pos hrl] at hr
      unfold allReplies at hr
      simp at hr
      rw [hr]
      left
      rfl
    · rw [if_neg hrl] at hr
      cases parsed with
      | error e =>
        unfold allReplies at hr
        simp at hr
        rw [hr]
        left
        rfl
      | ok j =>
        cases j with
        | arr items =>
          dsimp only at hr
          rcases hb : MCPServer.handle_batch ss.reg ss.hst items with e | ⟨rs, hst'⟩ <;>
            rw [hb] at hr <;> dsimp only at hr
          · unfold allReplies at hr
            simp at hr
          · by_cases hemp : rs.isEmpty
            · rw [if_pos hemp] at hr
              unfold allReplies at hr
              simp at hr
            · rw [if_neg hemp] at hr
              unfold allReplies at hr
              simp at hr
              exact hb_mutex ss.reg items ss.hst rs hst' hb r hr
        | null =>
          dsimp only at hr
          rcases hsr : MCPServer.handle_single_request ss.reg ss.hst _ with e | ⟨ro, hst'⟩
          · rw [hsr] at hr
            unfold allReplies at hr
            simp at hr
          · rw [hsr] at hr
            dsimp only at hr
            cases hro : ro with
            | none =>
              rw [hro] at hr
              unfold allReplies at hr
              simp at hr
            | some r0 =>
              rw [hro] at hr
              unfold allReplies at hr
              simp at hr
              rw [hr]
              exact hsr_mutex ss.reg ss.hst _ r0 ro hst' hsr hro
        | bool b =>
          dsimp only at hr
          rcases hsr : MCPServer.handle_single_request ss.reg ss.hst _ with e | ⟨ro, hst'⟩
          · rw [hsr] at hr
            unfold allReplies at hr
            simp at hr
          · rw [hsr] at hr
            dsimp only at hr
            cases hro : ro with
            | none =>
              rw [hro] at hr
              unfold allReplies at hr
              simp at hr
            | some r0 =>
              rw [hro] at hr
              unfold allReplies at hr
              simp at hr
              rw [hr]
              exact hsr_mutex ss.reg ss.hst _ r0 ro hst' hsr hro
        | num n =>
          dsimp only at hr
          rcases hsr : MCPServer.handle_single_request ss.reg ss.hst _ with e | ⟨ro, hst'⟩
          · rw [hsr] at hr
            unfold allReplies at hr
            simp at hr
          · rw [hsr] at hr
            dsimp only at hr
            cases hro : ro with
            | none =>
              rw [hro] at hr
              unfold allReplies at hr
              simp at hr
            | some r0 =>
              rw [hro] at hr
              unfold allReplies at hr
              simp at hr
              rw [hr]
              exact hsr_mutex ss.reg ss.hst _ r0 ro hst' hsr hro
        | str s2 =>
          dsimp only at hr
          rcases hsr : MCPServer.handle_single_request ss.reg ss.hst _ with e | ⟨ro, hst'⟩
          · rw [hsr] at hr
            unfold allReplies at hr
            simp at hr
          · rw [hsr] at hr
            dsimp only at hr
            cases hro : ro with
            | none =>
              rw [hro] at hr
              unfold allReplies at hr
              simp at hr
            | some r0 =>
              rw [hro] at hr
              unfold allReplies at hr
              simp at hr
              rw [hr]
              exact hsr_mutex ss.reg ss.hst _ r0 ro hst' hsr hro
        | obj kvs =>
          dsimp only at hr
          rcases hsr : MCPServer.handle_single_request ss.reg ss.hst _ with e | ⟨ro, hst'⟩
          · rw [hsr] at hr
            unfold allReplies at hr
            simp at hr
          · rw [hsr] at hr
            dsimp only at hr
            cases hro : ro with
            | none =>
              rw [hro] at hr
              unfold allReplies at hr
              simp at hr
            | some r0 =>
              rw [hro] at hr
              unfold allReplies at hr
              simp at hr
              rw [hr]
              exact hsr_mutex ss.reg ss.hst _ r0 ro hst' hsr hro
  · intro reg st req r hr
    cases hid : req.id with
    | none =>
      rw [hr_notif reg st req hid] at hr
      simp at hr
    | some i =>
      unfold ProtocolHandler.handle_request at hr
      by_cases hm : req.method ∈ handlerTable
      · rw [if_pos hm] at hr
        rcases hd : dispatchMethod reg st req.method (convertParams req.params) with ⟨out, st'⟩
        rw [hd] at hr
        cases out with
        | ok v =>
          simp [hid] at hr
          constructor
          · intro hne1 hne2
            have hv := dispatch_ok_isSome reg st req.method (convertParams req.params)
              v st' hm hne1 hne2 hd
            rw [← hr]
            simp [JSONRPCResponse.success, hv]
          · intro hmeth
            obtain ⟨st'', hd2⟩ := dispatch_none_methods reg st req.method
              (convertParams req.params) hmeth
            rw [hd] at hd2
            simp only [Prod.mk.injEq, Except.ok.injEq] at hd2
            rw [← hr, ← hd2.1]
            exact ⟨rfl, rfl⟩
        | error e =>
          simp [hid] at hr
          constructor
          · intro _ _
            rw [← hr]
            simp [JSONRPCResponse.failure]
          · intro hmeth
            obtain ⟨st'', hd2⟩ := dispatch_none_methods reg st req.method
              (convertParams req.params) hmeth
            rw [hd] at hd2
            simp at hd2
      · rw [if_neg hm] at hr
        simp [hid] at hr
        constructor
        · intro _ _
          rw [← hr]
          simp [JSONRPCResponse.failure]
        · intro hmeth
          exfalso
          apply hm
          rcases hmeth with h | h <;> rw [h] <;> decide

/-- Handler state at startup. -/
def hst0 : HandlerState := { initialized := false, clientCapabilities := [] }

/-- Counterexample for C7 as frozen: the non-notification request
`{"id": 1, "method": "initialized"}` is answered with a response whose
`result` and `error` are both null — not "exactly one present". -/
theorem c7_counterexample :
    (ProtocolHandler.handle_request { tools := [] } hst0
        { id := some (RId.num 1), method := "initialized", params := Params.none }).1
      = some { id := some (RId.num 1), result := none, error := none } := rfl

/-- Witness for C7 at a concrete `ping` request: the response carries exactly
one of result/error. -/
theorem c7_witness :
    (JSONRPCResponse.success (some (RId.num 7))
        (some (Json.obj [("status", Json.str "ok")]))).result.isSome
      = !(JSONRPCResponse.success (some (RId.num 7))
        (some (Json.obj [("status", Json.str "ok")]))).error.isSome :=
  (c7_envelope.2 { tools := [] } hst0
      { id := some (RId.num 7), method := "ping", params := Params.none }
      (JSONRPCResponse.success (some (RId.num 7))
        (some (Json.obj [("status", Json.str "ok")]))) rfl).1
    (by decide) (by decide)

/-- C8 (amended): an unexpected (internal) handler exception surfaces to the
caller with the fixed `InternalError` code `-32603`, but its message is the
exception text `str(e)` itself (falling back to `"Internal error"` only when
`str(e)` is empty): the internal detail is leaked and distinct exceptions
remain distinguishable by the caller. -/
theorem c8_internal_error_leak (reg : ToolRegistry) (st : HandlerState)
    (m : String) (ps : Params) (i : RId) (msg : String) (st' : HandlerState)
    (hm : m ∈ handlerTable)
    (hd : dispatchMethod reg st m (convertParams ps) = (.error (PyExc.other msg), st')) :
    (ProtocolHandler.handle_request reg st { id := some i, method := m, params := ps }).1
      = some (JSONRPCResponse.failure (some i)
          (JSONRPCError.from_code ErrorCode.INTERNAL_ERROR (some msg)))
    ∧ (JSONRPCError.from_code ErrorCode.INTERNAL_ERROR (some msg)).message
        = (if msg = "" then "Internal error" else msg) := by
  constructor
  · unfold ProtocolHandler.handle_request
    dsimp only
    rw [if_pos hm, hd]
    rfl
  · by_cases hmsg : msg = ""
    · rw [hmsg]
      rfl
    · simp [JSONRPCError.from_code, hmsg]

/-- A registry with one tool whose schema enumeration raises an exception
carrying a server-internal message. -/
def leakReg (s : String) : ToolRegistry :=
  { tools := [{ name := "t", get_definition := .error (.other s),
                execute := fun _ => .ok (MToolResult.fail "boom") }] }

/-- Counterexample for C8 as frozen: two distinct internal exceptions produce
two distinct caller-visible messages — the exception text itself. -/
theorem c8_counterexample :
    respErrMsg ((ProtocolHandler.handle_request (leakReg "secret detail one") hst0
        { id := some (RId.num 1), method := "tools/list", params := Params.none }).1)
      = "secret detail one"
    ∧ respErrMsg ((ProtocolHandler.handle_request (leakReg "secret detail two") hst0
        { id := some (RId.num 1), method := "tools/list", params := Params.none }).1)
      = "secret detail two"
    ∧ ("secret detail one" : String) ≠ "secret detail two" :=
  ⟨rfl, rfl, by decide⟩

/-- Witness for C8 (amended) at a concrete raising registry. -/
theorem c8_witness :
    (ProtocolHandler.handle_request (leakReg "secret detail one") hst0
        { id := some (RId.num 1), method := "tools/list", params := Params.none }).1
      = some (JSONRPCResponse.failure (some (RId.num 1))
          (JSONRPCError.from_code ErrorCode.INTERNAL_ERROR (some "secret detail one"))) :=
  (c8_internal_error_leak (leakReg "secret detail one") hst0 "tools/list" Params.none
    (RId.num 1) "secret detail one" hst0 (by decide) rfl).1

/-- C1 (amended): a notification that passes rate limiting and request
validation gets no reply from `handle_message`, under every handler outcome
(unknown method and raising handlers included, since the registry and method
are arbitrary); but rate-limit rejection answers even a notification with a
`RateLimited` error (id null) before parsing, and a notification that fails
request validation is answered with an `InvalidRequest` error (id null). -/
theorem c1_notifications :
    (∀ (ss : ServerState) (now : ℤ) (c : String) (j : Json) (req : JSONRPCRequest),
       (ss.rl.is_allowed c now).1 = true →
       validateRequest j = .ok req → req.id = none →
       ∃ ss', MCPServer.handle_message ss now (.ok j) c = .ok (none, ss'))
    ∧ (∀ (ss : ServerState) (now : ℤ) (c : String) (parsed : Except String Json),
       (ss.rl.is_allowed c now).1 = false →
       ∃ msg ss', MCPServer.handle_message ss now parsed c
         = .ok (some (.one (JSONRPCResponse.failure none
             (JSONRPCError.from_code ErrorCode.RATE_LIMITED (some msg)))), ss'))
    ∧ (∀ (ss : ServerState) (now : ℤ) (c : String) (kvs : List (String × Json))
        (emsg : String),
       (ss.rl.is_allowed c now).1 = true →
       validateRequest (.obj kvs) = .error emsg →
       idOfJson (lookupJ kvs "id") = .ok none →
       ∃ ss', MCPServer.handle_message ss now (.ok (.obj kvs)) c
         = .ok (some (.one (JSONRPCResponse.failure none
             (JSONRPCError.from_code ErrorCode.INVALID_REQUEST (some emsg)))), ss')) := by
  refine ⟨?_, ?_, ?_⟩
  · intro ss now c j req hrl hv hid
    cases j
    case obj kvs =>
      unfold MCPServer.handle_message
      dsimp only
      rw [if_neg (by rw [hrl]; simp)]
      rcases hhr : ProtocolHandler.handle_request ss.reg ss.hst req with ⟨ro, hst1⟩
      have hro : ro = none := by
        have h1 := hr_notif ss.reg ss.hst req hid
        rw [hhr] at h1
        exact h1
      have hhs : MCPServer.handle_single_request ss.reg ss.hst (.obj kvs)
          = .ok (ro, hst1) := by
        unfold MCPServer.handle_single_request
        rw [hv]
        dsimp only
        rw [hhr]
      rw [hhs]
      dsimp only
      rw [hro]
      exact ⟨_, rfl⟩
    all_goals simp [validateRequest] at hv
  · intro ss now c parsed hrl
    unfold MCPServer.handle_message
    dsimp only
    rw [if_pos hrl]
    exact ⟨_, _, rfl⟩
  · intro ss now c kvs emsg hrl hv hidok
    unfold MCPServer.handle_message
    dsimp only
    rw [if_neg (by rw [hrl]; simp)]
    have hhs : MCPServer.handle_single_request ss.reg ss.hst (.obj kvs)
        = .ok (some (JSONRPCResponse.failure none
            (JSONRPCError.from_code ErrorCode.INVALID_REQUEST (some emsg))), ss.hst) := by
      unfold MCPServer.handle_single_request
      rw [hv]
      dsimp only
      rw [hidok]
    rw [hhs]
    exact ⟨_, rfl⟩

/-- A server state whose one-request window is already consumed at `now = 30`. -/
def ssOverLimit : ServerState :=
  { rl := { max_requests := 1, window_seconds := 60, buckets := fun _ => [0] },
    hst := hst0, reg := { tools := [] } }

/-- A server state with a generous untouched rate limit. -/
def ssFresh : ServerState :=
  { rl := RateLimiter.fresh 100 60, hst := hst0, reg := { tools := [] } }

/-- The notification `{"jsonrpc": "2.0", "method": "ping"}`. -/
def pingNotifJson : Json := Json.obj [("jsonrpc", .str "2.0"), ("method", .str "ping")]

/-- Counterexample for C1 as frozen: a valid notification sent while the
client is rate limited does receive a reply. -/
theorem c1_counterexample :
    validateRequest pingNotifJson
      = .ok { id := none, method := "ping", params := Params.none }
    ∧ hasReplyB (MCPServer.handle_message ssOverLimit 30 (.ok pingNotifJson) "client1")
      = true := ⟨rfl, rfl⟩

/-- Witness for C1 (amended): the same notification under an open rate limit
gets no reply. -/
theorem c1_witness :
    ∃ ss', MCPServer.handle_message ssFresh 0 (.ok pingNotifJson) "client1"
      = .ok (none, ss') :=
  c1_notifications.1 ssFresh 0 "client1" pingNotifJson
    { id := none, method := "ping", params := Params.none } rfl rfl rfl

/-- C6 (amended): for a batch of processable elements (objects whose raw id
is int, str or null), each element is handled independently in array order;
the number of replies equals the number of elements that are either valid
non-notifications or fail request validation (a malformed element without an
id is answered, unlike what the frozen claim counts); replies appear in
input order, witnessed by the reply id sequence; and when every element is a
valid notification no reply at all is produced.  An object element whose raw
id has any other type is not merely unanswered: while the failure reply is
being built, validating that id raises again and the exception escapes
`handle_message`, so the whole batch produces no reply at all. -/
theorem c6_batch_replies :
    (∀ (ss : ServerState) (now : ℤ) (c : String) (items : List Json),
      (ss.rl.is_allowed c now).1 = true →
      (∀ j ∈ items, elemSafe j = true) →
      ∃ rs ss',
        MCPServer.handle_message ss now (.ok (.arr items)) c
          = .ok ((if rs.isEmpty then none else some (.many rs)), ss')
        ∧ rs.length = (items.filter producesReply).length
        ∧ rs.map (fun r => r.id) = (items.filter producesReply).map elemRespId
        ∧ ((∀ j ∈ items, producesReply j = false) →
            MCPServer.handle_message ss now (.ok (.arr items)) c = .ok (none, ss')))
    ∧ (∀ (ss : ServerState) (now : ℤ) (c : String) (kvs : List (String × Json))
        (rest : List Json) (emsg : String) (e : PyExc),
      (ss.rl.is_allowed c now).1 = true →
      validateRequest (.obj kvs) = .error emsg →
      idOfJson (lookupJ kvs "id") = .error e →
      MCPServer.handle_message ss now (.ok (.arr (.obj kvs :: rest))) c = .error e) := by
  constructor
  · intro ss now c items hrl hsafe
    obtain ⟨rs, hst', hb, hlen, hmap⟩ := hb_spec ss.reg items ss.hst hsafe
    have hmsg : MCPServer.handle_message ss now (.ok (.arr items)) c
        = .ok ((if rs.isEmpty then none else some (.many rs)),
               { rl := (ss.rl.is_allowed c now).2, hst := hst', reg := ss.reg }) := by
      unfold MCPServer.handle_message
      dsimp only
      rw [if_neg (by rw [hrl]; simp)]
      rw [hb]
    refine ⟨rs, _, hmsg, hlen, hmap, ?_⟩
    intro hall
    have hfil : items.filter producesReply = [] := by
      rw [List.filter_eq_nil_iff]
      intro j hj
      rw [hall j hj]
      simp
    have hrs : rs = [] := by
      rw [hfil] at hlen
      simpa using hlen
    rw [hrs] at hmsg
    simpa using hmsg
  · intro ss now c kvs rest emsg e hrl hv hide
    have hhs : MCPServer.handle_single_request ss.reg ss.hst (.obj kvs) = .error e := by
      unfold MCPServer.handle_single_request
      rw [hv]
      dsimp only
      rw [hide]
    have hb : MCPServer.handle_batch ss.reg ss.hst (Json.obj kvs :: rest) = .error e := by
      unfold MCPServer.handle_batch
      rw [hhs]
    unfold MCPServer.handle_message
    dsimp only
    rw [if_neg (by rw [hrl]; simp)]
    rw [hb]

/-- A batch element that is a notification in the frozen claim's sense (no
id) but fails request validation (empty method). -/
def badBatchElem : Json := Json.obj [("jsonrpc", .str "2.0"), ("method", .str "")]

/-- Counterexample for C6 as frozen: a batch with zero non-notification
elements that nevertheless yields one reply. -/
theorem c6_counterexample :
    nonNotifCount [badBatchElem] = 0
    ∧ replyCount (MCPServer.handle_message ssFresh 0
        (.ok (Json.arr [badBatchElem])) "client1") = 1 := ⟨rfl, rfl⟩

/-- Witness for C6 (amended) on a concrete two-element batch — one valid
notification and one valid non-notification — plus the crash case: a
singleton batch whose element carries a boolean id makes `handle_message`
raise instead of answering. -/
theorem c6_witness :
    (∃ rs ss',
      MCPServer.handle_message ssFresh 0
          (.ok (.arr [Json.obj [("method", .str "ping")],
                      Json.obj [("id", .num 1), ("method", .str "ping")]])) "client1"
        = .ok ((if rs.isEmpty then none else some (.many rs)), ss')
      ∧ rs.length = (([Json.obj [("method", Json.str "ping")],
                       Json.obj [("id", Json.num 1), ("method", Json.str "ping")]]).filter
                       producesReply).length
      ∧ rs.map (fun r => r.id)
          = (([Json.obj [("method", Json.str "ping")],
               Json.obj [("id", Json.num 1), ("method", Json.str "ping")]]).filter
               producesReply).map elemRespId
      ∧ ((∀ j ∈ [Json.obj [("method", Json.str "ping")],
                  Json.obj [("id", Json.num 1), ("method", Json.str "ping")]],
            producesReply j = false) →
          MCPServer.handle_message ssFresh 0
              (.ok (.arr [Json.obj [("method", .str "ping")],
                          Json.obj [("id", .num 1), ("method", .str "ping")]])) "client1"
            = .ok (none, ss')))
    ∧ MCPServer.handle_message ssFresh 0
        (.ok (.arr [Json.obj [("id", .bool true), ("method", .str "ping")]])) "client1"
      = .error (.valueError "Input should be int, str or None") :=
  ⟨c6_batch_replies.1 ssFresh 0 "client1"
    [Json.obj [("method", .str "ping")], Json.obj [("id", .num 1), ("method", .str "ping")]]
    rfl (by decide),
   c6_batch_replies.2 ssFresh 0 "client1"
    [("id", .bool true), ("method", .str "ping")] []
    "id: Input should be int, str or None"
    (.valueError "Input should be int, str or None") rfl rfl rfl⟩

end WMCP
